import Mathlib

/-!
Verification of the kanban email-board backend (NestJS service layer).

The definitions below are a shallow embedding, in Lean, of the
service-layer code:

* `Json`, `encodePageToken`, `decodePageToken` — the opaque board page
  token (base64-encoded JSON) produced and consumed by
  `KanbanService.getBoard` (kanban.service.ts, token decode at lines
  849–863 and encode at lines 1052–1062).  We model the token at the
  level of the parsed JSON value; the platform base64/JSON string codec
  is treated as the external lossless transport it is.
* `EmailItem`, `fetchColumnRaw`, `processItem`, … — the per-column
  cursor query, snooze wake-up and next-cursor computation of
  `getBoard` (lines 875–1028).
* `mongoCreateEmailItem`, `onDemandSyncInsert` — the idempotent insert
  of `syncGmailLabelToColumnOnDemand` (lines 1190–1262) over the unique
  `(userId, messageId)` index declared in the EmailItem schema.
* `resolveLabelId`, `workflowLabels`, `computeLabelMods`,
  `updateStatus` — the status move and Gmail label cleanup
  (lines 1278–1379).
* `snoozeUpdate` — the snooze endpoint (lines 1381–1400).
* `migrateOneDeleted`, `migrateDeletedColumns` — orphaned-item
  migration on column deletion (`updateKanbanColumns`,
  lines 1664–1750).
* `usersUpdateKanbanColumns` — column-set validation in the
  `UsersService` (the current revision, which also checks the empty
  list, duplicate ids and duplicate Gmail labels).
* `clampScore`, `convertFuzzyScore` — the semantic/fuzzy score merge of
  `semanticSearch` (lines 333–378).

All stores are per-user: the `userId` component of every Mongo query in
the embedded code is fixed, so it is dropped from the model and a store
is the list of that user's cached items.
-/

namespace KanbanSpec

/-- Parsed JSON values, as produced by `JSON.parse` in the service.
`JSON.parse` never produces `undefined`, so there is no such
constructor; a missing object field is modelled by `jGet` returning
`none`. -/
inductive Json where
  | jnull : Json
  | jbool : Bool → Json
  | jnum : Int → Json
  | jstr : String → Json
  | jarr : List Json → Json
  | jobj : List (String × Json) → Json

/-- JavaScript truthiness of a parsed JSON value: `null`, `false`, `0`
and `""` are falsy; every object and array (even empty) is truthy. -/
def jTruthy : Json → Bool
  | .jnull => false
  | .jbool b => b
  | .jnum n => n != 0
  | .jstr s => s != ""
  | .jarr _ => true
  | .jobj _ => true

/-- Property read `value[key]` on a parsed JSON value: a lookup on an
object, `none` (JS `undefined`) on a missing key or a non-object. -/
def jGet : Json → String → Option Json
  | .jobj kvs, k => kvs.lookup k
  | _, _ => none

/-- The three per-column maps carried by the board page token, exactly
as the mutable `cursorMap` / `gmailDoneMap` / `gmailPageTokenMap`
variables of `getBoard` hold them (dynamically typed JS objects). -/
structure BoardTokenState where
  cursorMap : Json
  gmailDoneMap : Json
  gmailPageTokenMap : Json

/-- `columns.forEach((col) => { cursorMap[col.id] = null; ... })`:
the fresh-start cursor map (every column starts from the newest). -/
def initCursorMap (cols : List String) : Json :=
  .jobj (cols.map fun c => (c, .jnull))

/-- Fresh-start `gmailDoneMap`: no column's Gmail sync is done. -/
def initDoneMap (cols : List String) : Json :=
  .jobj (cols.map fun c => (c, .jbool false))

/-- Fresh-start `gmailPageTokenMap`: no column has a Gmail page token. -/
def initTokMap (cols : List String) : Json :=
  .jobj (cols.map fun c => (c, .jnull))

/-- The fresh-start token state built by `getBoard` before any token is
decoded. -/
def initTokenState (cols : List String) : BoardTokenState :=
  ⟨initCursorMap cols, initDoneMap cols, initTokMap cols⟩

/-- Decoding of the incoming `pageToken` (kanban.service.ts 849–863).
The argument is the result of `JSON.parse(Buffer.from(token,
'base64').toString())`: `none` models a parse failure (the `catch`
leaves the fresh-start maps), `some .jnull` models a parsed `null`
(member access throws inside the `try`, with the same effect), and any
other value is read with JS member-access semantics:
`if (decoded.cursor) cursorMap = decoded.cursor;
 gmailDoneMap = decoded.gmailDone || {};
 gmailPageTokenMap = decoded.gmailPageToken || {}`. -/
def decodePageToken (cols : List String) (tok : Option Json) : BoardTokenState :=
  match tok with
  | none => initTokenState cols
  | some .jnull => initTokenState cols
  | some d =>
      let c := (jGet d "cursor").getD .jnull
      let g := (jGet d "gmailDone").getD .jnull
      let p := (jGet d "gmailPageToken").getD .jnull
      { cursorMap := if jTruthy c then c else initCursorMap cols
        gmailDoneMap := if jTruthy g then g else .jobj []
        gmailPageTokenMap := if jTruthy p then p else .jobj [] }

/-- A nullable string (`string | null`), as stored per column in
`nextCursorMap` and `gmailPageTokenMap`, rendered to JSON. -/
def cursorValToJson : Option String → Json
  | none => .jnull
  | some s => .jstr s

/-- Encoding of the next page token (kanban.service.ts 1055–1061):
`JSON.stringify({ cursor: nextCursorMap, gmailDone: gmailDoneMap,
gmailPageToken: gmailPageTokenMap })`, modelled at the JSON level. -/
def encodePageToken (cursor : List (String × Option String))
    (done : List (String × Bool))
    (tok : List (String × Option String)) : Json :=
  .jobj [("cursor", .jobj (cursor.map fun kv => (kv.1, cursorValToJson kv.2))),
         ("gmailDone", .jobj (done.map fun kv => (kv.1, .jbool kv.2))),
         ("gmailPageToken", .jobj (tok.map fun kv => (kv.1, cursorValToJson kv.2)))]

/-- Typed read-back of a cursor/page-token map from its JSON image
(inverse of the `cursorValToJson` rendering); used to state that the
round trip is lossless. -/
def readNullableStrMap : Json → Option (List (String × Option String))
  | .jobj kvs =>
      kvs.foldr (fun kv acc =>
        match acc with
        | none => none
        | some rest =>
          match kv.2 with
          | .jnull => some ((kv.1, none) :: rest)
          | .jstr s => some ((kv.1, some s) :: rest)
          | _ => none) (some [])
  | _ => none

/-- Typed read-back of a boolean map from its JSON image. -/
def readBoolMap : Json → Option (List (String × Bool))
  | .jobj kvs =>
      kvs.foldr (fun kv acc =>
        match acc with
        | none => none
        | some rest =>
          match kv.2 with
          | .jbool b => some ((kv.1, b) :: rest)
          | _ => none) (some [])
  | _ => none

/-- The effective cursor `getBoard` uses for a column:
`cursorMap[col.id]`, with a missing key (JS `undefined`) behaving like
`null` at every use site (both are falsy). -/
def effCursor (st : BoardTokenState) (colId : String) : Json :=
  (jGet st.cursorMap colId).getD .jnull

/-- The effective per-column Gmail-done flag: `!gmailDoneMap[col.id]`
tests truthiness, so a missing key reads as `false`. -/
def effDone (st : BoardTokenState) (colId : String) : Bool :=
  jTruthy ((jGet st.gmailDoneMap colId).getD .jnull)

/-- The effective per-column Gmail page token
(`gmailPageTokenMap[col.id] || undefined`). -/
def effTok (st : BoardTokenState) (colId : String) : Json :=
  (jGet st.gmailPageTokenMap colId).getD .jnull

end KanbanSpec

namespace KanbanSpec

theorem readNullableStrMap_round (l : List (String × Option String)) :
    readNullableStrMap (.jobj (l.map fun kv => (kv.1, cursorValToJson kv.2))) = some l := by
  induction l with
  | nil => rfl
  | cons hd tl ih =>
      obtain ⟨k, v⟩ := hd
      simp only [readNullableStrMap, List.map_cons, List.foldr_cons] at *
      rw [ih]
      cases v <;> simp [cursorValToJson]

theorem readBoolMap_round (l : List (String × Bool)) :
    readBoolMap (.jobj (l.map fun kv => (kv.1, Json.jbool kv.2))) = some l := by
  induction l with
  | nil => rfl
  | cons hd tl ih =>
      simp only [readBoolMap, List.map_cons, List.foldr_cons] at *
      rw [ih]

theorem lookup_map_const (cols : List String) (k : String) (v : Json) :
    ((cols.map fun c => (c, v)).lookup k) = none ∨
      ((cols.map fun c => (c, v)).lookup k) = some v := by
  induction cols with
  | nil => exact Or.inl rfl
  | cons hd tl ih =>
      simp only [List.map_cons, List.lookup]
      by_cases h : (k == hd) = true
      · rw [h]; exact Or.inr rfl
      · rw [Bool.not_eq_true] at h; rw [h]; exact ih

/-- Claim C1 helper shape is added later; this section settles C4.

Claim C4: encoding a per-column page-token map (a cursor timestamp or
null per column, a remote-exhausted boolean per column, and a remote
page token or null per column) into the opaque page token and decoding
it yields the identical map, including null remote-page-tokens and
false exhausted flags; and decoding a malformed token yields the
fresh-start state (all cursors null, nothing exhausted, no remote
tokens) rather than an error.  The first conjunct shows the decoded
state carries exactly the encoded JSON maps and that they read back to
the identical typed maps; the second settles the malformed case (a
token whose base64/JSON parse fails). -/
theorem pageToken_roundtrip_and_malformed (cols : List String)
    (c : List (String × Option String)) (d : List (String × Bool))
    (t : List (String × Option String)) :
    (decodePageToken cols (some (encodePageToken c d t)) =
      ⟨.jobj (c.map fun kv => (kv.1, cursorValToJson kv.2)),
       .jobj (d.map fun kv => (kv.1, .jbool kv.2)),
       .jobj (t.map fun kv => (kv.1, cursorValToJson kv.2))⟩ ∧
     readNullableStrMap (decodePageToken cols (some (encodePageToken c d t))).cursorMap = some c ∧
     readBoolMap (decodePageToken cols (some (encodePageToken c d t))).gmailDoneMap = some d ∧
     readNullableStrMap (decodePageToken cols (some (encodePageToken c d t))).gmailPageTokenMap = some t) ∧
    (decodePageToken cols none = initTokenState cols ∧
     ∀ colId : String,
       effCursor (decodePageToken cols none) colId = .jnull ∧
       effDone (decodePageToken cols none) colId = false ∧
       effTok (decodePageToken cols none) colId = .jnull) := by
  have hdec : decodePageToken cols (some (encodePageToken c d t)) =
      ⟨.jobj (c.map fun kv => (kv.1, cursorValToJson kv.2)),
       .jobj (d.map fun kv => (kv.1, .jbool kv.2)),
       .jobj (t.map fun kv => (kv.1, cursorValToJson kv.2))⟩ := by
    simp [decodePageToken, encodePageToken, jGet, List.lookup, jTruthy]
  refine ⟨⟨hdec, ?_, ?_, ?_⟩, rfl, ?_⟩
  · rw [hdec]; exact readNullableStrMap_round c
  · rw [hdec]; exact readBoolMap_round d
  · rw [hdec]; exact readNullableStrMap_round t
  · intro colId
    refine ⟨?_, ?_, ?_⟩
    · show (jGet (initCursorMap cols) colId).getD .jnull = .jnull
      rcases lookup_map_const cols colId .jnull with h | h <;>
        simp [jGet, initCursorMap, h]
    · show jTruthy ((jGet (initDoneMap cols) colId).getD .jnull) = false
      rcases lookup_map_const cols colId (.jbool false) with h | h <;>
        simp [jGet, initDoneMap, h, jTruthy]
    · show (jGet (initTokMap cols) colId).getD .jnull = .jnull
      rcases lookup_map_const cols colId .jnull with h | h <;>
        simp [jGet, initTokMap, h]

/-- The SNOOZED sentinel status (`EmailStatus.SNOOZED`). -/
def SNOOZED : String := "SNOOZED"

/-- The default inbox column id / status (`EmailStatus.INBOX`). -/
def INBOX : String := "INBOX"

/-- One cached message row of the per-user Cache Store (the `EmailItem`
Mongo document).  Timestamps are integers (milliseconds); `receivedAt`
is optional as in the schema; `snoozeUntil = none` covers both a
missing and an unparsable stored date (the code treats both alike via
`Number.isFinite(snoozeUntil.getTime())`).  Fields not read by the
verified operations (sender, subject, …) are omitted. -/
structure EmailItem where
  messageId : String
  status : String
  receivedAt : Option Int
  createdAt : Int
  snoozeUntil : Option Int
  originalStatus : Option String
deriving Repr, DecidableEq

/-- The cursor condition of the per-column board query:
`receivedAt: { $lt: new Date(cursor) }` when a cursor is present.  As
in Mongo, a missing `receivedAt` does not match a `$lt` bound. -/
def matchesCursor (cursor : Option Int) (it : EmailItem) : Bool :=
  match cursor with
  | none => true
  | some c =>
      match it.receivedAt with
      | some r => decide (r < c)
      | none => false

/-- The per-column board query `{ userId, status: col.id }` plus the
cursor condition (kanban.service.ts 881–889). -/
def columnFilter (colId : String) (cursor : Option Int) (it : EmailItem) : Bool :=
  it.status == colId && matchesCursor cursor it

/-- The Mongo sort `{ receivedAt: -1, createdAt: -1 }`: newest first,
ties (and rows with no `receivedAt`, which sort last in a descending
sort) broken by `createdAt` descending. -/
def mongoDescOrder (a b : EmailItem) : Prop :=
  match a.receivedAt, b.receivedAt with
  | some x, some y => if x = y then b.createdAt ≤ a.createdAt else y < x
  | some _, none => True
  | none, some _ => False
  | none, none => b.createdAt ≤ a.createdAt

instance : DecidableRel mongoDescOrder := fun a b => by
  unfold mongoDescOrder
  rcases a.receivedAt with _ | x <;> rcases b.receivedAt with _ | y <;>
    simp <;> infer_instance

/-- The raw page fetch for one column (kanban.service.ts 943–947):
filter by status and cursor, sort `receivedAt` descending, take
`pageSize`. -/
def fetchColumnRaw (store : List EmailItem) (colId : String)
    (cursor : Option Int) (pageSize : Nat) : List EmailItem :=
  (List.insertionSort mongoDescOrder
    (store.filter (columnFilter colId cursor))).take pageSize

/-- Per-item snooze processing of a fetched row (kanban.service.ts
949–991): a SNOOZED item still in the future (or with a
missing/unparsable `snoozeUntil`) is hidden (`null`); a due SNOOZED
item is returned woken — status flipped to `originalStatus ?? INBOX`,
snooze fields cleared; any other item is returned as is. -/
def processItem (now : Int) (item : EmailItem) : Option EmailItem :=
  if item.status = SNOOZED then
    match item.snoozeUntil with
    | some t =>
        if now < t then none
        else some { item with status := item.originalStatus.getD INBOX,
                              snoozeUntil := none, originalStatus := none }
    | none => none
  else some item

/-- Whether the snooze wake-up write fires for a fetched item (the
`else` branch of `snoozeUntil.getTime() > now.getTime()`). -/
def wakeDue (now : Int) (it : EmailItem) : Bool :=
  it.status == SNOOZED &&
    match it.snoozeUntil with
    | some t => decide (t ≤ now)
    | none => false

/-- The wake-up write for one due item (kanban.service.ts 966–972):
`updateOne({userId, messageId}, { $set: { status: restoreTo }, $unset:
{ snoozeUntil, originalStatus } })`, over the unique (userId,
messageId) key. -/
def wakeWrite (w : EmailItem) (s : List EmailItem) : List EmailItem :=
  s.map fun x =>
    if x.messageId = w.messageId then
      { x with status := w.originalStatus.getD INBOX,
               snoozeUntil := none, originalStatus := none }
    else x

/-- All wake-up writes triggered by one column page, applied to the
store in fetch order. -/
def applyWakes (now : Int) (fetched : List EmailItem)
    (store : List EmailItem) : List EmailItem :=
  fetched.foldl (fun s w => if wakeDue now w then wakeWrite w s else s) store

/-- The items one column contributes to the board page
(`filteredItems`: fetched, snooze-processed, hidden rows dropped). -/
def boardColumnItems (store : List EmailItem) (now : Int) (colId : String)
    (cursor : Option Int) (pageSize : Nat) : List EmailItem :=
  (fetchColumnRaw store colId cursor pageSize).filterMap (processItem now)

/-- The Cache Store after serving one column of the page (the snooze
wake-up side effects of `getBoard`). -/
def boardColumnStoreAfter (store : List EmailItem) (now : Int) (colId : String)
    (cursor : Option Int) (pageSize : Nat) : List EmailItem :=
  applyWakes now (fetchColumnRaw store colId cursor pageSize) store

/-- The cursor encoded into the next page token for one column
(kanban.service.ts 996–1000 and 1026): the `receivedAt` of the oldest
returned item, or the incoming cursor unchanged when the column
returned nothing (`col.nextCursor || cursorMap[col.status]`). -/
def nextCursorOut (store : List EmailItem) (now : Int) (colId : String)
    (cursor : Option Int) (pageSize : Nat) : Option Int :=
  match (boardColumnItems store now colId cursor pageSize).getLast?.bind
      (fun it => it.receivedAt) with
  | some r => some r
  | none => cursor

/-- The schema invariant behind the unique `(userId, messageId)` index:
no two rows of a user's store share a `messageId`. -/
def uniqueIds (store : List EmailItem) : Prop :=
  store.Pairwise fun a b => a.messageId ≠ b.messageId

theorem mem_fetchColumnRaw {store : List EmailItem} {colId : String}
    {cursor : Option Int} {pageSize : Nat} {it : EmailItem}
    (h : it ∈ fetchColumnRaw store colId cursor pageSize) :
    it ∈ store ∧ columnFilter colId cursor it = true := by
  have h1 : it ∈ List.insertionSort mongoDescOrder
      (store.filter (columnFilter colId cursor)) :=
    List.take_subset _ _ h
  have h2 : it ∈ store.filter (columnFilter colId cursor) :=
    (List.perm_insertionSort mongoDescOrder _).mem_iff.mp h1
  exact ⟨(List.mem_filter.mp h2).1, (List.mem_filter.mp h2).2⟩

theorem processItem_id_receivedAt {now : Int} {src out : EmailItem}
    (h : processItem now src = some out) :
    out.messageId = src.messageId ∧ out.receivedAt = src.receivedAt := by
  unfold processItem at h
  split at h
  · split at h
    · split at h
      · simp at h
      · cases h; exact ⟨rfl, rfl⟩
    · simp at h
  · cases h; exact ⟨rfl, rfl⟩

theorem mem_boardColumnItems {store : List EmailItem} {now : Int}
    {colId : String} {cursor : Option Int} {pageSize : Nat} {out : EmailItem}
    (h : out ∈ boardColumnItems store now colId cursor pageSize) :
    ∃ src ∈ fetchColumnRaw store colId cursor pageSize,
      processItem now src = some out :=
  List.mem_filterMap.mp h

/-- Claim C1: in a chained `getBoard` pagination sequence the
per-column local cursor never increases.  Formalised at one request
with an incoming cursor `c` for the column (which is what a chained
request carries once the column ever produced a cursor): every item the
column returns on this page has `receivedAt` strictly older than `c`;
if the column returns no items the encoded next cursor equals `c`
unchanged; and if it returns at least one item the encoded next cursor
is strictly older than `c`.  The store is arbitrary, so any on-demand
sync interleaving between requests is covered. -/
theorem cursor_monotonic (store : List EmailItem) (now : Int) (colId : String)
    (c : Int) (pageSize : Nat) :
    (∀ out ∈ boardColumnItems store now colId (some c) pageSize,
       ∃ r, out.receivedAt = some r ∧ r < c) ∧
    (boardColumnItems store now colId (some c) pageSize = [] →
       nextCursorOut store now colId (some c) pageSize = some c) ∧
    (boardColumnItems store now colId (some c) pageSize ≠ [] →
       ∃ r, r < c ∧ nextCursorOut store now colId (some c) pageSize = some r) := by
  have hmain : ∀ out ∈ boardColumnItems store now colId (some c) pageSize,
      ∃ r, out.receivedAt = some r ∧ r < c := by
    intro out hout
    obtain ⟨src, hsrc, hproc⟩ := mem_boardColumnItems hout
    obtain ⟨_, hfilt⟩ := mem_fetchColumnRaw hsrc
    have hcur : matchesCursor (some c) src = true := by
      simp only [columnFilter, Bool.and_eq_true] at hfilt
      exact hfilt.2
    unfold matchesCursor at hcur
    rcases hr : src.receivedAt with _ | r
    · rw [hr] at hcur; exact absurd hcur (by simp)
    · rw [hr] at hcur
      refine ⟨r, ?_, by simpa using hcur⟩
      rw [(processItem_id_receivedAt hproc).2, hr]
  refine ⟨hmain, ?_, ?_⟩
  · intro hnil
    unfold nextCursorOut
    rw [hnil]
    rfl
  · intro hne
    rcases hlast : (boardColumnItems store now colId (some c) pageSize).getLast? with _ | last
    · exact absurd (List.getLast?_eq_none_iff.mp hlast) hne
    · have hmem : last ∈ boardColumnItems store now colId (some c) pageSize :=
        List.mem_of_getLast?_eq_some hlast
      obtain ⟨r, hr, hrc⟩ := hmain last hmem
      refine ⟨r, hrc, ?_⟩
      unfold nextCursorOut
      rw [hlast]
      simp [Option.bind, hr]

/-- Witness for `cursor_monotonic` at a one-item store. -/
theorem cursor_monotonic_witness :
    ∃ r, r < 100 ∧
      nextCursorOut [⟨"m1", "INBOX", some 50, 0, none, none⟩] 0 "INBOX"
        (some 100) 10 = some r :=
  (cursor_monotonic [⟨"m1", "INBOX", some 50, 0, none, none⟩] 0 "INBOX"
    100 10).2.2 (by decide)

theorem uniqueIds_id_inj {store : List EmailItem} (huniq : uniqueIds store)
    {a b : EmailItem} (ha : a ∈ store) (hb : b ∈ store)
    (hid : a.messageId = b.messageId) : a = b := by
  by_contra hne
  have hsymm : Symmetric fun a b : EmailItem => a.messageId ≠ b.messageId := by
    intro x y h e
    exact h e.symm
  exact (List.Pairwise.forall hsymm huniq ha hb hne) hid

theorem processItem_hidden {now : Int} {it : EmailItem}
    (hsn : it.status = SNOOZED)
    (hfut : it.snoozeUntil = none ∨ ∃ t, it.snoozeUntil = some t ∧ now < t) :
    processItem now it = none := by
  unfold processItem
  rw [if_pos hsn]
  rcases hfut with hfut | ⟨t, ht, hlt⟩
  · rw [hfut]
  · rw [ht]
    simp [hlt]

theorem processItem_due {now : Int} {it : EmailItem} {t : Int}
    (hsn : it.status = SNOOZED) (ht : it.snoozeUntil = some t) (hdue : t ≤ now) :
    processItem now it =
      some { it with status := it.originalStatus.getD INBOX,
                     snoozeUntil := none, originalStatus := none } := by
  unfold processItem
  rw [if_pos hsn, ht]
  simp [not_lt.mpr hdue]

theorem wakeWrite_sets {w : EmailItem} {s : List EmailItem} {x : EmailItem}
    (hx : x ∈ wakeWrite w s) (hid : x.messageId = w.messageId) :
    x.status = w.originalStatus.getD INBOX ∧
      x.snoozeUntil = none ∧ x.originalStatus = none := by
  unfold wakeWrite at hx
  obtain ⟨y, _, hy⟩ := List.mem_map.mp hx
  by_cases hm : y.messageId = w.messageId
  · rw [if_pos hm] at hy
    rw [← hy]
    exact ⟨rfl, rfl, rfl⟩
  · rw [if_neg hm] at hy
    rw [← hy] at hid
    exact absurd hid hm

theorem wakeWrite_keeps_other {w : EmailItem} {s : List EmailItem}
    {x : EmailItem} (hx : x ∈ wakeWrite w s) (hne : x.messageId ≠ w.messageId) :
    x ∈ s := by
  unfold wakeWrite at hx
  obtain ⟨y, hymem, hy⟩ := List.mem_map.mp hx
  by_cases hm : y.messageId = w.messageId
  · rw [if_pos hm] at hy
    rw [← hy] at hne
    exact absurd hm hne
  · rw [if_neg hm] at hy
    rw [← hy]; exact hymem

theorem applyWakes_preserves {now : Int} {mid : String}
    {restore : String} (l : List EmailItem)
    (hl : ∀ w ∈ l, w.messageId ≠ mid) (s : List EmailItem)
    (hs : ∀ x ∈ s, x.messageId = mid →
      x.status = restore ∧ x.snoozeUntil = none ∧ x.originalStatus = none) :
    ∀ x ∈ applyWakes now l s, x.messageId = mid →
      x.status = restore ∧ x.snoozeUntil = none ∧ x.originalStatus = none := by
  induction l generalizing s with
  | nil => exact hs
  | cons w rest ih =>
      have hw : w.messageId ≠ mid := hl w (List.mem_cons_self w rest)
      have hrest : ∀ y ∈ rest, y.messageId ≠ mid :=
        fun y hy => hl y (List.mem_cons_of_mem w hy)
      show ∀ x ∈ applyWakes now rest
          (if wakeDue now w then wakeWrite w s else s), _
      refine ih hrest _ ?_
      by_cases hd : wakeDue now w
      · rw [if_pos hd]
        intro x hx hxid
        have hxs : x ∈ s := wakeWrite_keeps_other hx (by rw [hxid]; exact fun e => hw e.symm)
        exact hs x hxs hxid
      · rw [if_neg hd]
        exact hs

/-- Claim C2: for a cached SNOOZED item, (a) if `snoozeUntil` is
missing/unparsable or strictly in the future the item appears in no
column of any board page; (b) once `snoozeUntil <= now`, the page fetch
that returns it yields it with its column tag (`status`) flipped to
`originalStatus` (so it is a member of that restored column, not of
SNOOZED), with snooze fields cleared, and the Cache Store is updated
the same way.  Uniqueness of message ids is the schema's unique-index
invariant, and `originalStatus ≠ SNOOZED` is the snooze-endpoint
invariant (claim C10). -/
theorem snoozed_item_board_behavior (store : List EmailItem) (now : Int)
    (it : EmailItem) (hmem : it ∈ store) (huniq : uniqueIds store)
    (hsn : it.status = SNOOZED) :
    ((it.snoozeUntil = none ∨ ∃ t, it.snoozeUntil = some t ∧ now < t) →
      ∀ colId cursor pageSize,
        ∀ out ∈ boardColumnItems store now colId cursor pageSize,
          out.messageId ≠ it.messageId) ∧
    (∀ t, it.snoozeUntil = some t → t ≤ now →
      it.originalStatus ≠ some SNOOZED →
      ∀ colId cursor pageSize,
        it ∈ fetchColumnRaw store colId cursor pageSize →
        (∃ out ∈ boardColumnItems store now colId cursor pageSize,
           out.messageId = it.messageId ∧
           out.status = it.originalStatus.getD INBOX ∧
           out.status ≠ SNOOZED ∧
           out.snoozeUntil = none ∧ out.originalStatus = none) ∧
        (∀ x ∈ boardColumnStoreAfter store now colId cursor pageSize,
           x.messageId = it.messageId →
           x.status = it.originalStatus.getD INBOX ∧
           x.snoozeUntil = none ∧ x.originalStatus = none)) := by
  constructor
  · intro hfut colId cursor pageSize out hout heq
    obtain ⟨src, hsrc, hproc⟩ := mem_boardColumnItems hout
    have hsrcs := mem_fetchColumnRaw hsrc
    have hsrcid : src.messageId = it.messageId := by
      rw [← (processItem_id_receivedAt hproc).1]; exact heq
    have : src = it := uniqueIds_id_inj huniq hsrcs.1 hmem hsrcid
    rw [this] at hproc
    rw [processItem_hidden hsn hfut] at hproc
    exact absurd hproc (by simp)
  · intro t ht hdue horig colId cursor pageSize hfetch
    have hwoken : processItem now it =
        some { it with status := it.originalStatus.getD INBOX,
                       snoozeUntil := none, originalStatus := none } :=
      processItem_due hsn ht hdue
    constructor
    · refine ⟨{ it with status := it.originalStatus.getD INBOX,
                        snoozeUntil := none, originalStatus := none },
        List.mem_filterMap.mpr ⟨it, hfetch, hwoken⟩, rfl, rfl, ?_, rfl, rfl⟩
      show it.originalStatus.getD INBOX ≠ SNOOZED
      rcases ho : it.originalStatus with _ | o
      · simp [INBOX, SNOOZED]
      · simp only [Option.getD]
        intro he
        exact horig (by rw [ho, he])
    · -- the wake-up write has been applied to the store
      have hpfetch : (fetchColumnRaw store colId cursor pageSize).Pairwise
          fun a b => a.messageId ≠ b.messageId := by
        have h1 : (store.filter (columnFilter colId cursor)).Pairwise
            fun a b => a.messageId ≠ b.messageId :=
          List.Pairwise.sublist (List.filter_sublist store) huniq
        have h2 : (List.insertionSort mongoDescOrder
            (store.filter (columnFilter colId cursor))).Pairwise
            fun a b => a.messageId ≠ b.messageId :=
          ((List.perm_insertionSort mongoDescOrder _).pairwise_iff
            (fun {x y} h e => h e.symm)).mpr h1
        exact List.Pairwise.sublist (List.take_sublist _ _) h2
      obtain ⟨l₁, l₂, hsplit⟩ := List.append_of_mem hfetch
      have hdec : applyWakes now (fetchColumnRaw store colId cursor pageSize) store =
          applyWakes now l₂
            (if wakeDue now it then wakeWrite it (applyWakes now l₁ store)
             else applyWakes now l₁ store) := by
        rw [hsplit]
        unfold applyWakes
        rw [List.foldl_append, List.foldl_cons]
      have hwd : wakeDue now it = true := by
        unfold wakeDue
        rw [ht]
        simp [hsn, SNOOZED, hdue]
      have hl₂ : ∀ w ∈ l₂, w.messageId ≠ it.messageId := by
        rw [hsplit] at hpfetch
        have := (List.pairwise_append.mp hpfetch).2.1
        intro w hw
        exact fun e => ((List.pairwise_cons.mp this).1 w hw) e.symm
      intro x hx hxid
      unfold boardColumnStoreAfter at hx
      rw [hdec, if_pos hwd] at hx
      refine applyWakes_preserves l₂ hl₂ _ ?_ x hx hxid
      intro y hy hyid
      exact wakeWrite_sets hy hyid

/-- Witness for `snoozed_item_board_behavior`: a due snoozed item is
returned woken into its original column. -/
theorem snoozed_item_board_behavior_witness :
    ∃ out ∈ boardColumnItems
        [{ messageId := "m1", status := "SNOOZED", receivedAt := some 10,
           createdAt := 0, snoozeUntil := some 5, originalStatus := some "TODO" }]
        20 "SNOOZED" none 1,
      out.messageId = "m1" ∧ out.status = "TODO" ∧ out.status ≠ "SNOOZED" ∧
      out.snoozeUntil = none ∧ out.originalStatus = none := by
  have h := (snoozed_item_board_behavior
      [{ messageId := "m1", status := "SNOOZED", receivedAt := some 10,
         createdAt := 0, snoozeUntil := some 5, originalStatus := some "TODO" }]
      20
      { messageId := "m1", status := "SNOOZED", receivedAt := some 10,
        createdAt := 0, snoozeUntil := some 5, originalStatus := some "TODO" }
      (by decide) (by simp [uniqueIds]) rfl).2
      5 rfl (by decide) (by decide) "SNOOZED" none 1 (by decide)
  obtain ⟨⟨out, hmem, h1, h2, h3, h4, h5⟩, _⟩ := h
  exact ⟨out, hmem, h1, h2, h3, h4, h5⟩

/-- `this.emailItemModel.create(...)` against the unique
`(userId, messageId)` index: fails with a duplicate-key error (E11000)
when a row with the same key exists, otherwise appends the row. -/
def mongoCreateEmailItem (store : List EmailItem) (it : EmailItem) :
    Except Unit (List EmailItem) :=
  if store.any fun x => x.messageId == it.messageId then .error ()
  else .ok (store ++ [it])

/-- The `try { create } catch (err) { if (err.code === 11000) skip }`
of `syncGmailLabelToColumnOnDemand` (kanban.service.ts 1223–1260): a
duplicate-key failure is absorbed as a no-op. -/
def insertWithDupCatch (store : List EmailItem) (it : EmailItem) :
    List EmailItem :=
  match mongoCreateEmailItem store it with
  | .ok s => s
  | .error _ => store

/-- One message of the on-demand sync loop (kanban.service.ts
1190–1261): skip when `findOne` sees the row, else create with the
duplicate-key catch. -/
def onDemandSyncInsert (store : List EmailItem) (it : EmailItem) :
    List EmailItem :=
  if store.any fun x => x.messageId == it.messageId then store
  else insertWithDupCatch store it

theorem onDemandSyncInsert_absent {store : List EmailItem} {it : EmailItem}
    (h : (store.any fun x => x.messageId == it.messageId) = false) :
    onDemandSyncInsert store it = store ++ [it] := by
  unfold onDemandSyncInsert insertWithDupCatch mongoCreateEmailItem
  rw [h]
  simp

theorem onDemandSyncInsert_present {store : List EmailItem} {it : EmailItem}
    (h : (store.any fun x => x.messageId == it.messageId) = true) :
    onDemandSyncInsert store it = store := by
  unfold onDemandSyncInsert
  rw [h]
  simp

/-- Claim C3: the `(userId, messageId)` key is unique in the Cache
Store and inserts are idempotent.  (a) an on-demand sync insert
preserves key-uniqueness of the store; (b) after an insert the store
never holds two rows for the inserted key; (c) inserting the same key a
second time is a no-op; (d) a duplicate-key `create` racing a parallel
sync (the row appeared after the `findOne` check) errors with E11000
and the catch turns it into a benign no-op, not a sync failure. -/
theorem insert_idempotent_unique (store : List EmailItem) (it : EmailItem) :
    (uniqueIds store → uniqueIds (onDemandSyncInsert store it)) ∧
    (uniqueIds store →
      ((onDemandSyncInsert store it).countP
        fun x => x.messageId == it.messageId) ≤ 1) ∧
    (onDemandSyncInsert (onDemandSyncInsert store it) it =
      onDemandSyncInsert store it) ∧
    ((store.any fun x => x.messageId == it.messageId) = true →
      mongoCreateEmailItem store it = .error () ∧
      insertWithDupCatch store it = store) := by
  have hcount : ∀ (l : List EmailItem), uniqueIds l → ∀ m : String,
      (l.countP fun x => x.messageId == m) ≤ 1 := by
    intro l hu m
    induction l with
    | nil => simp
    | cons a tl ih =>
        obtain ⟨ha, htl⟩ := List.pairwise_cons.mp hu
        rw [List.countP_cons]
        by_cases hm : (a.messageId == m) = true
        · have h0 : (tl.countP fun x => x.messageId == m) = 0 := by
            rw [List.countP_eq_zero]
            intro b hb hbe
            exact (ha b hb) (by
              rw [beq_iff_eq] at hm hbe
              rw [hm, hbe])
          rw [h0]
          simp [hm]
        · rw [Bool.not_eq_true] at hm
          rw [hm]
          simpa using ih htl
  have hpres : uniqueIds store → uniqueIds (onDemandSyncInsert store it) := by
    intro hu
    by_cases h : (store.any fun x => x.messageId == it.messageId) = true
    · rw [onDemandSyncInsert_present h]; exact hu
    · rw [onDemandSyncInsert_absent (Bool.not_eq_true _ ▸ h)]
      unfold uniqueIds at *
      rw [List.pairwise_append]
      refine ⟨hu, List.pairwise_singleton _ _, ?_⟩
      intro a ha b hb
      rw [List.mem_singleton.mp hb]
      intro he
      exact h (List.any_eq_true.mpr ⟨a, ha, by simp [he]⟩)
  refine ⟨hpres, ?_, ?_, ?_⟩
  · intro hu
    exact hcount _ (hpres hu) it.messageId
  · cases h : (store.any fun x => x.messageId == it.messageId) with
    | true => rw [onDemandSyncInsert_present h, onDemandSyncInsert_present h]
    | false =>
        have hstep : onDemandSyncInsert store it = store ++ [it] :=
          onDemandSyncInsert_absent h
        rw [hstep]
        have h2 : ((store ++ [it]).any fun x => x.messageId == it.messageId) = true :=
          List.any_eq_true.mpr ⟨it, by simp, by simp⟩
        rw [onDemandSyncInsert_present h2]
  · intro h
    constructor
    · unfold mongoCreateEmailItem
      rw [h]
      simp
    · unfold insertWithDupCatch mongoCreateEmailItem
      rw [h]
      simp

/-- JS whitespace for `String.prototype.trim` (the characters that
matter here: space, tab, LF, CR). -/
def jsWs (c : Char) : Bool :=
  c == ' ' || c == '\t' || c == '\n' || c == '\r'

/-- `value.trim()`: strip leading and trailing whitespace.  Implemented
structurally over the character list so that concrete values compute
inside the kernel. -/
def jsTrim (s : String) : String :=
  String.mk (((s.data.dropWhile jsWs).reverse.dropWhile jsWs).reverse)

/-- `value.toLowerCase()` restricted to ASCII (the label names and
column names compared by the service). -/
def jsToLower (s : String) : String :=
  String.mk (s.data.map fun c =>
    if 'A' ≤ c && c ≤ 'Z' then Char.ofNat (c.toNat + 32) else c)

/-- `/^Label_/.test(v)`. -/
def startsWithLabelTag (s : String) : Bool :=
  "Label_".data.isPrefixOf s.data

/-- One entry of the Gmail label catalog (`gmail.users.labels.list`). -/
structure GmailLabel where
  id : Option String
  name : Option String
deriving Repr, DecidableEq

/-- `new Map(labels.filter(l => l.name && l.id).map(l =>
[String(l.name).toLowerCase(), String(l.id)]))`. -/
def buildNameToId (labels : List GmailLabel) : List (String × String) :=
  labels.filterMap fun l =>
    match l.name, l.id with
    | some n, some i => if n != "" && i != "" then some (jsToLower n, i) else none
    | _, _ => none

/-- JS `Map#get`: with duplicate keys in the constructor list, the last
binding wins. -/
def mapGet (m : List (String × String)) (k : String) : Option String :=
  m.reverse.lookup k

/-- The reserved system label ids recognised by `resolveLabelId`. -/
def systemLabelIds : List String :=
  ["INBOX", "STARRED", "IMPORTANT", "SENT", "DRAFT", "TRASH", "SPAM", "UNREAD"]

/-- `resolveLabelId` of `updateStatus` (kanban.service.ts 1323–1333):
trim; empty stays empty; system ids and `Label_`-prefixed ids pass
through; otherwise a case-insensitive catalog lookup, falling back to
the trimmed value itself (with a warning) when unresolved. -/
def resolveLabelId (nameToId : List (String × String)) (value : String) : String :=
  let v := jsTrim value
  if v = "" then ""
  else if systemLabelIds.contains v then v
  else if startsWithLabelTag v then v
  else
    match mapGet nameToId (jsToLower v) with
    | some r => r
    | none => v

/-- A user board column as the kanban service consumes it
(`KanbanColumnConfig`). -/
structure ColumnConfig where
  id : String
  name : String
  gmailLabel : Option String
  order : Int
deriving Repr, DecidableEq

/-- `allWorkflowLabels` (kanban.service.ts 1338–1341): the resolved
remote labels bound to any of the user's columns, empty resolutions
dropped. -/
def workflowLabels (nameToId : List (String × String))
    (columns : List ColumnConfig) : List String :=
  (columns.map fun c =>
    match c.gmailLabel with
    | some l => if l != "" then resolveLabelId nameToId l else ""
    | none => "").filter fun id => id != ""

/-- `addLabelId` of `updateStatus`
(`gmailLabel ? resolveLabelId(gmailLabel) : ''`). -/
def addLabelIdOf (nameToId : List (String × String)) (gmailLabel : String) : String :=
  if gmailLabel != "" then resolveLabelId nameToId gmailLabel else ""

/-- The filter of kanban.service.ts 1347–1349:
`allWorkflowLabels.filter(id => id !== addLabelId &&
(isArchiveColumn || id !== 'INBOX'))`. -/
def removeLabelsBase (nameToId : List (String × String))
    (columns : List ColumnConfig) (gmailLabel : String) : List String :=
  (workflowLabels nameToId columns).filter
    fun id => id != addLabelIdOf nameToId gmailLabel &&
      ((gmailLabel == "") || id != "INBOX")

/-- The add/remove label sets `updateStatus` sends in its single
`messages.modify` call (kanban.service.ts 1335–1364): remove every
workflow label other than the one being added, keeping `INBOX` unless
the target is the empty-string archive column, in which case `INBOX`
is also pushed onto the removal list. -/
def computeLabelMods (nameToId : List (String × String))
    (columns : List ColumnConfig) (gmailLabel : String) : String × List String :=
  (addLabelIdOf nameToId gmailLabel,
   if (gmailLabel == "") && !((removeLabelsBase nameToId columns gmailLabel).contains "INBOX")
   then removeLabelsBase nameToId columns gmailLabel ++ ["INBOX"]
   else removeLabelsBase nameToId columns gmailLabel)

/-- Counterexample to claim C5 as stated: with columns INBOX→`INBOX`
and TODO→`Label_1`, moving a message to TODO (label `Label_1`) removes
nothing — the workflow label `INBOX` is bound to a column and is not
the label being added, yet it is not in `removeLabelIds`, so the
message ends up carrying both `INBOX` and `Label_1`. -/
theorem updateStatus_label_removal_counterexample :
    "INBOX" ∈ workflowLabels []
      [{ id := "INBOX", name := "Inbox", gmailLabel := some "INBOX", order := 0 },
       { id := "TODO", name := "Todo", gmailLabel := some "Label_1", order := 1 }] ∧
    "INBOX" ≠ (computeLabelMods []
      [{ id := "INBOX", name := "Inbox", gmailLabel := some "INBOX", order := 0 },
       { id := "TODO", name := "Todo", gmailLabel := some "Label_1", order := 1 }]
      "Label_1").1 ∧
    "INBOX" ∉ (computeLabelMods []
      [{ id := "INBOX", name := "Inbox", gmailLabel := some "INBOX", order := 0 },
       { id := "TODO", name := "Todo", gmailLabel := some "Label_1", order := 1 }]
      "Label_1").2 := by
  decide

/-- Claim C5 as amended: the modify request removes every resolved
workflow label except the one being added **and except `INBOX`, which
is preserved unless the move is the empty-string archive**; when
archiving, every workflow label is removed and `INBOX` is additionally
removed even if it was not a workflow label. -/
theorem computeLabelMods_spec (nameToId : List (String × String))
    (columns : List ColumnConfig) (gmailLabel : String) :
    (gmailLabel = "" →
      (∀ id ∈ workflowLabels nameToId columns,
        id ∈ (computeLabelMods nameToId columns gmailLabel).2) ∧
      "INBOX" ∈ (computeLabelMods nameToId columns gmailLabel).2) ∧
    (gmailLabel ≠ "" →
      ∀ id, id ∈ (computeLabelMods nameToId columns gmailLabel).2 ↔
        (id ∈ workflowLabels nameToId columns ∧
         id ≠ (computeLabelMods nameToId columns gmailLabel).1 ∧
         id ≠ "INBOX")) := by
  constructor
  · intro harch
    subst harch
    have hbase : ∀ id ∈ workflowLabels nameToId columns,
        id ∈ removeLabelsBase nameToId columns "" := by
      intro id hid
      have hne : (id != "") = true := by
        unfold workflowLabels at hid
        exact (List.mem_filter.mp hid).2
      have hadd : addLabelIdOf nameToId "" = "" := rfl
      refine List.mem_filter.mpr ⟨hid, ?_⟩
      rw [hadd]
      simp [hne]
    constructor
    · intro id hid
      show id ∈ (computeLabelMods nameToId columns "").2
      unfold computeLabelMods
      by_cases hc : ((removeLabelsBase nameToId columns "").contains "INBOX") = true
      · simp only [hc]
        simpa using hbase id hid
      · rw [Bool.not_eq_true] at hc
        simp only [hc]
        simp only [Bool.not_false, Bool.and_true]
        simp only [List.mem_append, List.mem_singleton, beq_self_eq_true, if_true]
        exact Or.inl (hbase id hid)
    · show "INBOX" ∈ (computeLabelMods nameToId columns "").2
      unfold computeLabelMods
      by_cases hc : ((removeLabelsBase nameToId columns "").contains "INBOX") = true
      · simp only [hc]
        simpa using hc
      · rw [Bool.not_eq_true] at hc
        simp only [hc]
        simp
  · intro hne id
    have harch : (gmailLabel == "") = false := by
      simpa using hne
    have h2 : (computeLabelMods nameToId columns gmailLabel).2 =
        removeLabelsBase nameToId columns gmailLabel := by
      unfold computeLabelMods
      rw [harch]
      simp
    have h1 : (computeLabelMods nameToId columns gmailLabel).1 =
        addLabelIdOf nameToId gmailLabel := rfl
    rw [h1, h2]
    unfold removeLabelsBase
    rw [harch, List.mem_filter]
    constructor
    · rintro ⟨hmem, hcond⟩
      rw [Bool.and_eq_true] at hcond
      refine ⟨hmem, ?_, ?_⟩
      · simpa using hcond.1
      · simpa using hcond.2
    · rintro ⟨hmem, hadd, hinbox⟩
      exact ⟨hmem, by simp [hadd, hinbox]⟩

/-- Witness for `computeLabelMods_spec`: archiving removes `INBOX`. -/
theorem computeLabelMods_spec_witness :
    "INBOX" ∈ (computeLabelMods []
      [{ id := "INBOX", name := "Inbox", gmailLabel := some "INBOX", order := 0 }]
      "").2 :=
  ((computeLabelMods_spec []
    [{ id := "INBOX", name := "Inbox", gmailLabel := some "INBOX", order := 0 }]
    "").1 rfl).2

/-- The local half of `updateStatus` (kanban.service.ts 1286–1292):
`findOneAndUpdate({userId, messageId}, { $set: { status }, $unset:
{ snoozeUntil, originalStatus } }, { new: true })` — `none` when no row
matches (which `updateStatus` turns into a 404).  `applyStatusSet` is
the update document `{ $set: { status }, $unset: { snoozeUntil,
originalStatus } }` applied to one row. -/
def applyStatusSet (status : String) (y : EmailItem) : EmailItem :=
  { y with status := status, snoozeUntil := none, originalStatus := none }

def updateStatusLocal (store : List EmailItem) (messageId status : String) :
    Option (List EmailItem × EmailItem) :=
  match store.find? fun x => x.messageId == messageId with
  | none => none
  | some x =>
      some
        (store.map fun y =>
          if y.messageId == messageId then applyStatusSet status y else y,
         applyStatusSet status x)

/-- The effect of the single `gmail.users.messages.modify` call on the
remote message's label set: remove `removeLabelIds`, add `addLabelIds`
(when non-empty). -/
def applyGmailModify (msgLabels : List String) (addLabelId : String)
    (removeLabelIds : List String) : List String :=
  (msgLabels.filter fun l => !(removeLabelIds.contains l)) ++
    (if addLabelId != "" && !(msgLabels.contains addLabelId)
     then [addLabelId] else [])

/-- `updateStatus` (kanban.service.ts 1278–1379): commit the local
status move (404 when the item is missing), then — only when a
`gmailLabel` argument was supplied — attempt the remote label sync,
whose failure (`remoteFails`) is caught, logged and swallowed.  The
result carries the updated store, the returned item and the remote
message's label set. -/
def updateStatus (nameToId : List (String × String))
    (columns : List ColumnConfig) (store : List EmailItem)
    (msgLabels : List String) (messageId status : String)
    (gmailLabel : Option String) (remoteFails : Bool) :
    Except Unit (List EmailItem × EmailItem × List String) :=
  match updateStatusLocal store messageId status with
  | none => .error ()
  | some (st, item) =>
      match gmailLabel with
      | none => .ok (st, item, msgLabels)
      | some gl =>
          if remoteFails then .ok (st, item, msgLabels)
          else
            .ok (st, item,
              applyGmailModify msgLabels
                (computeLabelMods nameToId columns gl).1
                (computeLabelMods nameToId columns gl).2)

/-- Projection of an `updateStatus` outcome onto its local part (store
and returned item), used to state that the remote outcome cannot change
what the caller and the Cache Store see. -/
def localPart (r : Except Unit (List EmailItem × EmailItem × List String)) :
    Except Unit (List EmailItem × EmailItem) :=
  match r with
  | .error e => .error e
  | .ok (st, item, _) => .ok (st, item)

/-- Claim C6: `updateStatus` 404s exactly when no cached item matches
the message id; otherwise the local status is set to the target column
with snooze fields cleared, and this local commit together with the
returned item is identical whether the subsequent Gmail label
modification succeeds or fails — the remote failure is swallowed, never
rolled back and never surfaced. -/
theorem updateStatus_local_commit (nameToId : List (String × String))
    (columns : List ColumnConfig) (store : List EmailItem)
    (msgLabels : List String) (messageId status : String)
    (gmailLabel : Option String) :
    ((∀ x ∈ store, x.messageId ≠ messageId) →
      ∀ rf, updateStatus nameToId columns store msgLabels messageId status
        gmailLabel rf = .error ()) ∧
    (∀ x ∈ store, x.messageId = messageId →
      ∀ rf, ∃ st item remote2,
        updateStatus nameToId columns store msgLabels messageId status
          gmailLabel rf = .ok (st, item, remote2) ∧
        item.status = status ∧ item.snoozeUntil = none ∧
        item.originalStatus = none ∧
        (∀ y ∈ st, y.messageId = messageId →
          y.status = status ∧ y.snoozeUntil = none ∧ y.originalStatus = none)) ∧
    (∀ rf1 rf2,
      localPart (updateStatus nameToId columns store msgLabels messageId status
        gmailLabel rf1) =
      localPart (updateStatus nameToId columns store msgLabels messageId status
        gmailLabel rf2)) := by
  refine ⟨?_, ?_, ?_⟩
  · intro habs rf
    have hf : (store.find? fun x => x.messageId == messageId) = none := by
      rw [List.find?_eq_none]
      intro x hx
      simpa using habs x hx
    unfold updateStatus updateStatusLocal
    rw [hf]
  · intro x hx hxid rf
    rcases hf : store.find? fun y => y.messageId == messageId with _ | f
    · exfalso
      have := List.find?_eq_none.mp hf x hx
      simp [hxid] at this
    · have hstep : updateStatusLocal store messageId status =
          some
            (store.map fun y =>
              if y.messageId == messageId then applyStatusSet status y else y,
             applyStatusSet status f) := by
        unfold updateStatusLocal
        rw [hf]
      have hstore : ∀ y2 ∈ (store.map fun y =>
          if y.messageId == messageId then applyStatusSet status y else y),
          y2.messageId = messageId →
          y2.status = status ∧ y2.snoozeUntil = none ∧
          y2.originalStatus = none := by
        intro y2 hy2 hy2id
        obtain ⟨y, _, hyeq⟩ := List.mem_map.mp hy2
        by_cases hm : (y.messageId == messageId) = true
        · rw [if_pos hm] at hyeq
          rw [← hyeq]
          exact ⟨rfl, rfl, rfl⟩
        · rw [Bool.not_eq_true] at hm
          rw [if_neg (by simp [hm])] at hyeq
          rw [← hyeq] at hy2id
          simp [hy2id] at hm
      unfold updateStatus
      rw [hstep]
      rcases gmailLabel with _ | gl
      · exact ⟨_, applyStatusSet status f, msgLabels, rfl, rfl, rfl, rfl, hstore⟩
      · cases rf
        · exact ⟨_, applyStatusSet status f,
            applyGmailModify msgLabels
              (computeLabelMods nameToId columns gl).1
              (computeLabelMods nameToId columns gl).2,
            by simp, rfl, rfl, rfl, hstore⟩
        · exact ⟨_, applyStatusSet status f, msgLabels,
            by simp, rfl, rfl, rfl, hstore⟩
  · intro rf1 rf2
    unfold updateStatus
    rcases updateStatusLocal store messageId status with _ | ⟨st, item⟩
    · rfl
    · rcases gmailLabel with _ | gl
      · rfl
      · cases rf1 <;> cases rf2 <;> rfl

/-- Witness for `updateStatus_local_commit`: the move commits locally
even when the remote label sync fails. -/
theorem updateStatus_local_commit_witness :
    ∃ st item remote2,
      updateStatus [] []
        [{ messageId := "m1", status := "INBOX", receivedAt := some 1,
           createdAt := 0, snoozeUntil := some 9, originalStatus := some "TODO" }]
        ["INBOX"] "m1" "DONE" (some "Label_2") true = .ok (st, item, remote2) ∧
      item.status = "DONE" ∧ item.snoozeUntil = none ∧
      item.originalStatus = none ∧
      (∀ y ∈ st, y.messageId = "m1" →
        y.status = "DONE" ∧ y.snoozeUntil = none ∧ y.originalStatus = none) :=
  (updateStatus_local_commit [] []
    [{ messageId := "m1", status := "INBOX", receivedAt := some 1,
       createdAt := 0, snoozeUntil := some 9, originalStatus := some "TODO" }]
    ["INBOX"] "m1" "DONE" (some "Label_2")).2.1
    { messageId := "m1", status := "INBOX", receivedAt := some 1,
      createdAt := 0, snoozeUntil := some 9, originalStatus := some "TODO" }
    (by decide) rfl true

/-- The `snooze` endpoint (kanban.service.ts 1381–1400): reject an
unparsable datetime (`none`) with a 400; otherwise remember the restore
column — the existing `originalStatus` when the item is already
SNOOZED, the current `status` otherwise, defaulting to INBOX when that
is nullish — and set `status = SNOOZED`, `snoozeUntil = date`. -/
def snoozeUpdate (item : EmailItem) (untilTime : Option Int) :
    Except Unit EmailItem :=
  match untilTime with
  | none => .error ()
  | some u =>
      let original : Option String :=
        if item.status = SNOOZED then item.originalStatus else some item.status
      .ok { item with status := SNOOZED,
                      originalStatus := some (original.getD INBOX),
                      snoozeUntil := some u }

/-- Claim C10: snoozing an already-SNOOZED item preserves the recorded
`originalStatus` instead of overwriting it with SNOOZED; snoozing a
non-snoozed item records its current status (an already-snoozed item
with no recorded restore column falls back to INBOX); and under the
invariant that a SNOOZED item's recorded `originalStatus` is never the
SNOOZED sentinel, every snooze call yields an item whose
`originalStatus` is set and differs from SNOOZED. -/
theorem snooze_preserves_originalStatus (item : EmailItem) (u : Int) :
    (item.status = SNOOZED → ∀ o, item.originalStatus = some o →
      snoozeUpdate item (some u) =
        .ok { item with status := SNOOZED, originalStatus := some o,
                        snoozeUntil := some u }) ∧
    (item.status = SNOOZED → item.originalStatus = none →
      snoozeUpdate item (some u) =
        .ok { item with status := SNOOZED, originalStatus := some INBOX,
                        snoozeUntil := some u }) ∧
    (item.status ≠ SNOOZED →
      snoozeUpdate item (some u) =
        .ok { item with status := SNOOZED, originalStatus := some item.status,
                        snoozeUntil := some u }) ∧
    ((item.status = SNOOZED → item.originalStatus ≠ some SNOOZED) →
      ∃ res, snoozeUpdate item (some u) = .ok res ∧
        res.status = SNOOZED ∧ res.snoozeUntil = some u ∧
        ∃ r, res.originalStatus = some r ∧ r ≠ SNOOZED) := by
  refine ⟨?_, ?_, ?_, ?_⟩
  · intro hs o ho
    unfold snoozeUpdate
    rw [if_pos hs, ho]
    rfl
  · intro hs ho
    unfold snoozeUpdate
    rw [if_pos hs, ho]
    rfl
  · intro hs
    unfold snoozeUpdate
    rw [if_neg hs]
    rfl
  · intro hinv
    by_cases hs : item.status = SNOOZED
    · rcases ho : item.originalStatus with _ | o
      · refine ⟨{ item with status := SNOOZED, originalStatus := some INBOX,
                            snoozeUntil := some u }, ?_, rfl, rfl, INBOX, rfl,
                 by decide⟩
        unfold snoozeUpdate
        rw [if_pos hs, ho]
        rfl
      · refine ⟨{ item with status := SNOOZED, originalStatus := some o,
                            snoozeUntil := some u }, ?_, rfl, rfl, o, rfl, ?_⟩
        · unfold snoozeUpdate
          rw [if_pos hs, ho]
          rfl
        · intro he
          exact (hinv hs) (by rw [ho, he])
    · refine ⟨{ item with status := SNOOZED, originalStatus := some item.status,
                          snoozeUntil := some u }, ?_, rfl, rfl, item.status,
               rfl, hs⟩
      unfold snoozeUpdate
      rw [if_neg hs]
      rfl

/-- Witness for `snooze_preserves_originalStatus`: re-snoozing keeps
the restore column. -/
theorem snooze_preserves_originalStatus_witness :
    snoozeUpdate
      { messageId := "m1", status := "SNOOZED", receivedAt := some 1,
        createdAt := 0, snoozeUntil := some 5, originalStatus := some "TODO" }
      (some 99) =
    .ok { messageId := "m1", status := "SNOOZED", receivedAt := some 1,
          createdAt := 0, snoozeUntil := some 99,
          originalStatus := some "TODO" } :=
  (snooze_preserves_originalStatus
    { messageId := "m1", status := "SNOOZED", receivedAt := some 1,
      createdAt := 0, snoozeUntil := some 5, originalStatus := some "TODO" }
    99).1 rfl "TODO" rfl

/-- `col.gmailLabel?.trim()` truthiness: the column has a non-blank
bound remote label. -/
def hasWorkflowLabel (c : ColumnConfig) : Bool :=
  match c.gmailLabel with
  | some l => jsTrim l != ""
  | none => false

/-- `columnsWithLabels.find(c => c.id === 'INBOX') ||
columnsWithLabels[0]` (kanban.service.ts 1704–1706). -/
def migrationTarget (columnsWithLabels : List ColumnConfig) :
    Option ColumnConfig :=
  match columnsWithLabels.find? fun c => c.id == "INBOX" with
  | some c => some c
  | none => columnsWithLabels.head?

/-- Migration of one deleted column's items (the body of the
`deletedColumns` loop, kanban.service.ts 1691–1726): count the items
still carrying the deleted status; when there are any and a migration
target exists, `updateMany` them to the target's id; otherwise leave
them orphaned. -/
def migrateOneDeleted (saved : List ColumnConfig) (s : List EmailItem)
    (dcolId : String) : List EmailItem :=
  if s.countP (fun it => it.status == dcolId) = 0 then s
  else
    match migrationTarget (saved.filter hasWorkflowLabel) with
    | some target =>
        s.map fun it =>
          if it.status == dcolId then { it with status := target.id } else it
    | none => s

/-- The orphaned-email handling of `updateKanbanColumns`
(kanban.service.ts 1676–1727): diff the old column set against the
saved one and migrate each deleted column's items in order. -/
def migrateDeletedColumns (oldCols saved : List ColumnConfig)
    (store : List EmailItem) : List EmailItem :=
  ((oldCols.filter fun c => !((saved.map fun c2 => c2.id).contains c.id)).map
    fun c => c.id).foldl (migrateOneDeleted saved) store

/-- Counterexample to claim C7 as stated: deleting column C while the
surviving columns are [B bound to label "Work", A bound to the inbox
label "INBOX"] migrates C's item to **B** (the first surviving labelled
column), not to A, even though A is the surviving column bound to the
inbox-equivalent label — the code prefers a column whose *id* is
`INBOX`, not the column bound to the `INBOX` *label*. -/
theorem column_migration_counterexample :
    migrateDeletedColumns
      [{ id := "B", name := "Work col", gmailLabel := some "Work", order := 0 },
       { id := "A", name := "Inbox col", gmailLabel := some "INBOX", order := 1 },
       { id := "C", name := "Doomed", gmailLabel := none, order := 2 }]
      [{ id := "B", name := "Work col", gmailLabel := some "Work", order := 0 },
       { id := "A", name := "Inbox col", gmailLabel := some "INBOX", order := 1 }]
      [{ messageId := "m1", status := "C", receivedAt := some 1,
         createdAt := 0, snoozeUntil := none, originalStatus := none }] =
      [{ messageId := "m1", status := "B", receivedAt := some 1,
         createdAt := 0, snoozeUntil := none, originalStatus := none }] ∧
    (∃ c ∈ ([{ id := "B", name := "Work col", gmailLabel := some "Work", order := 0 },
             { id := "A", name := "Inbox col", gmailLabel := some "INBOX", order := 1 }] :
              List ColumnConfig),
       c.gmailLabel = some "INBOX" ∧ c.id = "A") ∧
    "B" ≠ "A" := by
  decide

/-- Claim C7 as amended: when a column save removes a column id, its
items are migrated preferentially to the surviving *labelled column
whose id is `INBOX`*, else to the first surviving column with a
non-blank bound label; and when no surviving column has a bound label
the store is untouched — the items keep their orphaned status, are not
deleted, and (last conjunct) an item whose status matches no surviving
column id is returned by no column's board query. -/
theorem column_migration_spec (saved : List ColumnConfig) :
    ((saved.filter hasWorkflowLabel) = [] →
      ∀ oldCols store, migrateDeletedColumns oldCols saved store = store) ∧
    (∀ t, migrationTarget (saved.filter hasWorkflowLabel) = some t →
      ((saved.filter hasWorkflowLabel).find? (fun c => c.id == "INBOX") = none →
        (saved.filter hasWorkflowLabel).head? = some t) ∧
      (∀ c, (saved.filter hasWorkflowLabel).find? (fun c2 => c2.id == "INBOX") =
          some c → t = c ∧ t.id = "INBOX") ∧
      (∀ s d it2, it2 ∈ migrateOneDeleted saved s d →
        (it2 ∈ s ∧ it2.status ≠ d) ∨
        (∃ it ∈ s, it.status = d ∧ it2 = { it with status := t.id }))) ∧
    (∀ store it colId cursor pageSize,
      it ∈ fetchColumnRaw store colId cursor pageSize → it.status = colId) := by
  refine ⟨?_, ?_, ?_⟩
  · intro hempty oldCols store
    unfold migrateDeletedColumns
    generalize ((oldCols.filter fun c =>
      !((saved.map fun c2 => c2.id).contains c.id)).map fun c => c.id) = ids
    induction ids generalizing store with
    | nil => rfl
    | cons d rest ih =>
        rw [List.foldl_cons]
        have hone : migrateOneDeleted saved store d = store := by
          unfold migrateOneDeleted
          by_cases hc : store.countP (fun it => it.status == d) = 0
          · rw [if_pos hc]
          · rw [if_neg hc]
            unfold migrationTarget
            rw [hempty]
            rfl
        rw [hone]
        exact ih store
  · intro t ht
    refine ⟨?_, ?_, ?_⟩
    · intro hnone
      unfold migrationTarget at ht
      rw [hnone] at ht
      exact ht
    · intro c hc
      unfold migrationTarget at ht
      rw [hc] at ht
      cases ht
      have := List.find?_some hc
      exact ⟨rfl, by simpa using this⟩
    · intro s d it2 hit2
      unfold migrateOneDeleted at hit2
      by_cases hc : s.countP (fun it => it.status == d) = 0
      · rw [if_pos hc] at hit2
        refine Or.inl ⟨hit2, ?_⟩
        intro he
        have := List.countP_eq_zero.mp hc it2 hit2
        simp [he] at this
      · rw [if_neg hc, ht] at hit2
        obtain ⟨y, hy, hyeq⟩ := List.mem_map.mp hit2
        by_cases hm : (y.status == d) = true
        · rw [if_pos hm] at hyeq
          exact Or.inr ⟨y, hy, by simpa using hm, hyeq.symm⟩
        · rw [Bool.not_eq_true] at hm
          rw [if_neg (by simp [hm])] at hyeq
          refine Or.inl ⟨hyeq ▸ hy, ?_⟩
          rw [← hyeq]
          simpa using hm
  · intro store it colId cursor pageSize hmem
    have := (mem_fetchColumnRaw hmem).2
    unfold columnFilter at this
    rw [Bool.and_eq_true] at this
    simpa using this.1

/-- Witness for `column_migration_spec`: with no labelled surviving
column, the store is untouched. -/
theorem column_migration_spec_witness :
    migrateDeletedColumns
      [{ id := "C", name := "Doomed", gmailLabel := none, order := 0 }]
      [{ id := "Notes", name := "Notes", gmailLabel := none, order := 0 }]
      [{ messageId := "m1", status := "C", receivedAt := some 1,
         createdAt := 0, snoozeUntil := none, originalStatus := none }] =
    [{ messageId := "m1", status := "C", receivedAt := some 1,
       createdAt := 0, snoozeUntil := none, originalStatus := none }] :=
  (column_migration_spec
    [{ id := "Notes", name := "Notes", gmailLabel := none, order := 0 }]).1
    (by decide)
    [{ id := "C", name := "Doomed", gmailLabel := none, order := 0 }]
    [{ messageId := "m1", status := "C", receivedAt := some 1,
       createdAt := 0, snoozeUntil := none, originalStatus := none }]

/-- A column as posted to the column-save endpoint (`KanbanColumnConfig`
before normalization): `order` may be missing/non-finite (`none`). -/
structure ColIn where
  id : String
  name : String
  gmailLabel : Option String
  order : Option Int
deriving Repr, DecidableEq

/-- A normalized column as stored by `UsersService.updateKanbanColumns`. -/
structure NCol where
  id : String
  name : String
  gmailLabel : Option String
  order : Int
deriving Repr, DecidableEq

/-- `c.gmailLabel ? String(c.gmailLabel).trim() : undefined` followed by
`gmailLabel: gmailLabel || undefined`: a missing, empty or blank label
normalizes to absent. -/
def normGmailLabel (g : Option String) : Option String :=
  match g with
  | none => none
  | some s =>
      if s = "" then none
      else if jsTrim s = "" then none
      else some (jsTrim s)

/-- The normalization loop of `UsersService.updateKanbanColumns`: trim
id and name, reject an empty id, an empty name or a duplicate id (all
`ConflictException`s), default a non-finite `order` to the position
index. -/
def normalizeGo (idx : Nat) (idSet : List String) :
    List ColIn → Except Unit (List NCol)
  | [] => .ok []
  | c :: rest =>
      if jsTrim c.id = "" then .error ()
      else if jsTrim c.name = "" then .error ()
      else if idSet.contains (jsTrim c.id) then .error ()
      else
        match normalizeGo (idx + 1) (jsTrim c.id :: idSet) rest with
        | .error e => .error e
        | .ok ncols =>
            .ok ({ id := jsTrim c.id, name := jsTrim c.name,
                   gmailLabel := normGmailLabel c.gmailLabel,
                   order := c.order.getD (Int.ofNat idx) } :: ncols)

/-- Entry point of the normalization loop. -/
def normalizeColumns (cols : List ColIn) : Except Unit (List NCol) :=
  normalizeGo 0 [] cols

instance : DecidableRel fun a b : NCol => a.order ≤ b.order :=
  fun a b => Int.decLe a.order b.order

/-- `normalized.sort((a, b) => (a.order ?? 0) - (b.order ?? 0))`. -/
def sortByOrder (l : List NCol) : List NCol :=
  List.insertionSort (fun a b => a.order ≤ b.order) l

/-- `normalized.forEach((c, i) => (c.order = i))`: renumber to a dense
`0..n-1` sequence. -/
def renumberGo (i : Int) : List NCol → List NCol
  | [] => []
  | c :: rest => { c with order := i } :: renumberGo (i + 1) rest

/-- Renumbering starts at 0. -/
def renumber (l : List NCol) : List NCol :=
  renumberGo 0 l

/-- `col.name.toLowerCase().trim()` — the key of the duplicate-name
check. -/
def nameKeyN (c : NCol) : String :=
  jsTrim (jsToLower c.name)

/-- The duplicate-label key of a (nullable) stored label:
`col.gmailLabel` truthy, then `toLowerCase().trim()`. -/
def labelKeyOf (o : Option String) : Option String :=
  match o with
  | none => none
  | some l => if l = "" then none else some (jsTrim (jsToLower l))

/-- The duplicate-label key of a normalized column. -/
def labKeyN (c : NCol) : Option String :=
  labelKeyOf c.gmailLabel

/-- The duplicate-name check (case-insensitive) of
`UsersService.updateKanbanColumns`. -/
def checkDupNames (seen : List String) : List NCol → Except Unit Unit
  | [] => .ok ()
  | c :: rest =>
      if seen.contains (nameKeyN c) then .error ()
      else checkDupNames (nameKeyN c :: seen) rest

/-- The duplicate-gmailLabel check (case-insensitive, empty labels
skipped) of `UsersService.updateKanbanColumns`. -/
def checkDupLabels (seen : List String) : List NCol → Except Unit Unit
  | [] => .ok ()
  | c :: rest =>
      match labKeyN c with
      | some k => if seen.contains k then .error () else checkDupLabels (k :: seen) rest
      | none => checkDupLabels seen rest

/-- The validation pipeline of `UsersService.updateKanbanColumns` (the
current users service revision): reject an empty array, normalize
(rejecting empty ids/names and duplicate ids), sort by the supplied
order and renumber densely, then reject duplicate names and duplicate
non-empty labels; only then is the column list stored. -/
def usersUpdateKanbanColumnsValidate (cols : List ColIn) :
    Except Unit (List NCol) :=
  if cols.isEmpty then .error ()
  else
    match normalizeColumns cols with
    | .error e => .error e
    | .ok ncols =>
        match checkDupNames [] (renumber (sortByOrder ncols)) with
        | .error e => .error e
        | .ok _ =>
            match checkDupLabels [] (renumber (sortByOrder ncols)) with
            | .error e => .error e
            | .ok _ => .ok (renumber (sortByOrder ncols))

/-- `UsersService.updateKanbanColumns` as a transition on the stored
settings: the `findOneAndUpdate` write happens only after every check
passed, so a `ConflictException` leaves the stored column set
untouched. -/
def usersUpdateKanbanColumnsState (settings : List NCol) (cols : List ColIn) :
    List NCol × Except Unit (List NCol) :=
  match usersUpdateKanbanColumnsValidate cols with
  | .error e => (settings, .error e)
  | .ok final => (final, .ok final)

/-- The duplicate-name key as a function of the raw input column. -/
def nameKeyIn (c : ColIn) : String :=
  jsTrim (jsToLower (jsTrim c.name))

/-- The duplicate-label key as a function of the raw input column. -/
def labKeyIn (c : ColIn) : Option String :=
  labelKeyOf (normGmailLabel c.gmailLabel)

theorem bool_if_neg {b : Bool} (h : b = false) : ¬(b = true) := by
  rw [h]
  exact Bool.false_ne_true

theorem normalizeGo_ok_maps :
    ∀ (cols : List ColIn) (idx : Nat) (idSet : List String) (ncols : List NCol),
      normalizeGo idx idSet cols = .ok ncols →
      ncols.map (fun c => c.name) = cols.map (fun c => jsTrim c.name) ∧
      ncols.map (fun c => c.gmailLabel) =
        cols.map (fun c => normGmailLabel c.gmailLabel) := by
  intro cols
  induction cols with
  | nil =>
      intro idx idSet ncols h
      unfold normalizeGo at h
      cases h
      exact ⟨rfl, rfl⟩
  | cons c rest ih =>
      intro idx idSet ncols h
      unfold normalizeGo at h
      by_cases h1 : jsTrim c.id = ""
      · rw [if_pos h1] at h
        exact absurd h (by simp)
      · rw [if_neg h1] at h
        by_cases h2 : jsTrim c.name = ""
        · rw [if_pos h2] at h
          exact absurd h (by simp)
        · rw [if_neg h2] at h
          by_cases h3 : (idSet.contains (jsTrim c.id)) = true
          · rw [if_pos h3] at h
            exact absurd h (by simp)
          · rw [Bool.not_eq_true] at h3
            rw [if_neg (bool_if_neg h3)] at h
            rcases hrec : normalizeGo (idx + 1) (jsTrim c.id :: idSet) rest
              with e | tl
            · rw [hrec] at h
              exact absurd h (by simp)
            · rw [hrec] at h
              cases h
              obtain ⟨hn, hg⟩ := ih (idx + 1) _ tl hrec
              exact ⟨by simp [hn], by simp [hg]⟩

theorem renumberGo_map {β : Type} (f : NCol → β)
    (hf : ∀ (c : NCol) (i : Int), f { c with order := i } = f c) :
    ∀ (i : Int) (l : List NCol), (renumberGo i l).map f = l.map f := by
  intro i l
  induction l generalizing i with
  | nil => rfl
  | cons c rest ih =>
      unfold renumberGo
      simp [hf, ih]

theorem checkDupNames_ok :
    ∀ (l : List NCol) (seen : List String), checkDupNames seen l = .ok () →
      (∀ c ∈ l, (seen.contains (nameKeyN c)) = false) ∧
      l.Pairwise fun a b => nameKeyN a ≠ nameKeyN b := by
  intro l
  induction l with
  | nil =>
      intro seen h
      exact ⟨by simp, List.Pairwise.nil⟩
  | cons c rest ih =>
      intro seen h
      unfold checkDupNames at h
      by_cases hc : (seen.contains (nameKeyN c)) = true
      · rw [if_pos hc] at h
        exact absurd h (by simp)
      · rw [Bool.not_eq_true] at hc
        rw [if_neg (bool_if_neg hc)] at h
        obtain ⟨hseen, hpw⟩ := ih _ h
        refine ⟨?_, ?_⟩
        · intro d hd
          rcases List.mem_cons.mp hd with rfl | hd2
          · exact hc
          · have hd3 := hseen d hd2
            rw [List.contains_cons] at hd3
            exact (Bool.or_eq_false_iff.mp hd3).2
        · rw [List.pairwise_cons]
          refine ⟨?_, hpw⟩
          intro b hb
          have hb2 := hseen b hb
          rw [List.contains_cons] at hb2
          have := (Bool.or_eq_false_iff.mp hb2).1
          intro he
          simp [he] at this

theorem checkDupLabels_ok :
    ∀ (l : List NCol) (seen : List String), checkDupLabels seen l = .ok () →
      (∀ c ∈ l, ∀ k, labKeyN c = some k → (seen.contains k) = false) ∧
      l.Pairwise fun a b => ∀ ka kb, labKeyN a = some ka →
        labKeyN b = some kb → ka ≠ kb := by
  intro l
  induction l with
  | nil =>
      intro seen h
      exact ⟨by simp, List.Pairwise.nil⟩
  | cons c rest ih =>
      intro seen h
      unfold checkDupLabels at h
      rcases hk : labKeyN c with _ | k
      · rw [hk] at h
        have h2 : checkDupLabels seen rest = .ok () := h
        obtain ⟨hseen, hpw⟩ := ih _ h2
        refine ⟨?_, ?_⟩
        · intro d hd k2 hd2
          rcases List.mem_cons.mp hd with rfl | hd3
          · rw [hk] at hd2
            exact absurd hd2 (by simp)
          · exact hseen d hd3 k2 hd2
        · rw [List.pairwise_cons]
          refine ⟨?_, hpw⟩
          intro b _ ka kb hka _
          rw [hk] at hka
          exact absurd hka (by simp)
      · rw [hk] at h
        have h2 : (if seen.contains k = true then (Except.error () : Except Unit Unit)
            else checkDupLabels (k :: seen) rest) = .ok () := h
        by_cases hc : (seen.contains k) = true
        · rw [if_pos hc] at h2
          exact absurd h2 (by simp)
        · rw [Bool.not_eq_true] at hc
          rw [if_neg (bool_if_neg hc)] at h2
          obtain ⟨hseen, hpw⟩ := ih _ h2
          refine ⟨?_, ?_⟩
          · intro d hd k2 hd2
            rcases List.mem_cons.mp hd with rfl | hd3
            · rw [hk] at hd2
              cases hd2
              exact hc
            · have hd4 := hseen d hd3 k2 hd2
              rw [List.contains_cons] at hd4
              exact (Bool.or_eq_false_iff.mp hd4).2
          · rw [List.pairwise_cons]
            refine ⟨?_, hpw⟩
            intro b hb ka kb hka hkb
            rw [hk] at hka
            cases hka
            have hb2 := hseen b hb kb hkb
            rw [List.contains_cons] at hb2
            have := (Bool.or_eq_false_iff.mp hb2).1
            intro he
            simp [he] at this

theorem sublist_two_of_split {α : Type} (l₁ l₂ l₃ : List α) (c₁ c₂ : α) :
    [c₁, c₂].Sublist (l₁ ++ c₁ :: l₂ ++ c₂ :: l₃) := by
  have hA : [c₁].Sublist (c₁ :: l₂) :=
    List.Sublist.cons₂ c₁ (List.nil_sublist l₂)
  have hB : [c₁].Sublist (l₁ ++ (c₁ :: l₂)) :=
    hA.trans (List.sublist_append_right l₁ _)
  have hC : [c₂].Sublist (c₂ :: l₃) :=
    List.Sublist.cons₂ c₂ (List.nil_sublist l₃)
  exact hB.append hC

theorem name_pairwise_of_checks {cols : List ColIn} {ncols : List NCol}
    (hn : normalizeColumns cols = .ok ncols)
    (hcn : checkDupNames [] (renumber (sortByOrder ncols)) = .ok ()) :
    cols.Pairwise fun a b => nameKeyIn a ≠ nameKeyIn b := by
  have hpwf := (checkDupNames_ok _ [] hcn).2
  have hmap1 : (renumber (sortByOrder ncols)).map nameKeyN =
      (sortByOrder ncols).map nameKeyN :=
    renumberGo_map nameKeyN (fun c i => rfl) 0 (sortByOrder ncols)
  have hperm : List.Perm ((sortByOrder ncols).map nameKeyN)
      (ncols.map nameKeyN) :=
    (List.perm_insertionSort _ ncols).map nameKeyN
  have hpw1 : ((renumber (sortByOrder ncols)).map nameKeyN).Pairwise
      (fun a b => a ≠ b) := List.pairwise_map.mpr hpwf
  rw [hmap1] at hpw1
  have hpw2 : (ncols.map nameKeyN).Pairwise (fun a b => a ≠ b) :=
    (hperm.pairwise_iff (fun {x y} h e => h e.symm)).mp hpw1
  have hkeys : ncols.map nameKeyN = cols.map nameKeyIn := by
    have hnames := (normalizeGo_ok_maps cols 0 [] ncols hn).1
    have e1 : ncols.map nameKeyN =
        (ncols.map (fun c => c.name)).map (fun n => jsTrim (jsToLower n)) := by
      rw [List.map_map]
      rfl
    rw [e1, hnames, List.map_map]
    rfl
  rw [hkeys] at hpw2
  exact List.pairwise_map.mp hpw2

theorem label_pairwise_of_checks {cols : List ColIn} {ncols : List NCol}
    (hn : normalizeColumns cols = .ok ncols)
    (hcl : checkDupLabels [] (renumber (sortByOrder ncols)) = .ok ()) :
    cols.Pairwise fun a b => ∀ ka kb, labKeyIn a = some ka →
      labKeyIn b = some kb → ka ≠ kb := by
  have hpwf := (checkDupLabels_ok _ [] hcl).2
  have hmap1 : (renumber (sortByOrder ncols)).map labKeyN =
      (sortByOrder ncols).map labKeyN :=
    renumberGo_map labKeyN (fun c i => rfl) 0 (sortByOrder ncols)
  have hperm : List.Perm ((sortByOrder ncols).map labKeyN)
      (ncols.map labKeyN) :=
    (List.perm_insertionSort _ ncols).map labKeyN
  have hpw1 : ((renumber (sortByOrder ncols)).map labKeyN).Pairwise
      (fun a b => ∀ ka kb, a = some ka → b = some kb → ka ≠ kb) :=
    List.pairwise_map.mpr hpwf
  rw [hmap1] at hpw1
  have hsymm : ∀ {x y : Option String},
      (∀ ka kb, x = some ka → y = some kb → ka ≠ kb) →
      (∀ ka kb, y = some ka → x = some kb → ka ≠ kb) :=
    fun h ka kb hy hx => (h kb ka hx hy).symm
  have hpw2 : (ncols.map labKeyN).Pairwise
      (fun a b => ∀ ka kb, a = some ka → b = some kb → ka ≠ kb) :=
    (hperm.pairwise_iff hsymm).mp hpw1
  have hkeys : ncols.map labKeyN = cols.map labKeyIn := by
    have hlabels := (normalizeGo_ok_maps cols 0 [] ncols hn).2
    have e1 : ncols.map labKeyN =
        (ncols.map (fun c => c.gmailLabel)).map labelKeyOf := by
      rw [List.map_map]
      rfl
    rw [e1, hlabels, List.map_map]
    rfl
  rw [hkeys] at hpw2
  exact List.pairwise_map.mp hpw2

theorem validate_ok_pairwise {cols : List ColIn} {final : List NCol}
    (hv : usersUpdateKanbanColumnsValidate cols = .ok final) :
    (cols.Pairwise fun a b => nameKeyIn a ≠ nameKeyIn b) ∧
    (cols.Pairwise fun a b => ∀ ka kb, labKeyIn a = some ka →
      labKeyIn b = some kb → ka ≠ kb) := by
  unfold usersUpdateKanbanColumnsValidate at hv
  by_cases hemp : cols.isEmpty = true
  · rw [if_pos hemp] at hv
    exact absurd hv (by simp)
  · rw [Bool.not_eq_true] at hemp
    rw [if_neg (bool_if_neg hemp)] at hv
    split at hv
    · exact absurd hv (by simp)
    · rename_i ncols hn
      split at hv
      · exact absurd hv (by simp)
      · rename_i u hcn
        split at hv
        · exact absurd hv (by simp)
        · rename_i u2 hcl
          cases u
          cases u2
          exact ⟨name_pairwise_of_checks hn hcn,
                 label_pairwise_of_checks hn hcl⟩

/-- Claim C8: the column save rejects with a Conflict error, leaving
the stored column set unchanged, for (i) any input containing two
columns whose names agree case-insensitively (in particular names
differing only in case), (ii) any input containing two columns with the
same non-empty gmailLabel compared case-insensitively, and (iii) the
empty column array. -/
theorem updateKanbanColumns_rejects (settings : List NCol) :
    (∀ (l₁ : List ColIn) (c₁ : ColIn) (l₂ : List ColIn) (c₂ : ColIn)
        (l₃ : List ColIn), nameKeyIn c₁ = nameKeyIn c₂ →
      usersUpdateKanbanColumnsState settings (l₁ ++ c₁ :: l₂ ++ c₂ :: l₃) =
        (settings, .error ())) ∧
    (∀ (l₁ : List ColIn) (c₁ : ColIn) (l₂ : List ColIn) (c₂ : ColIn)
        (l₃ : List ColIn) (k : String),
      labKeyIn c₁ = some k → labKeyIn c₂ = some k →
      usersUpdateKanbanColumnsState settings (l₁ ++ c₁ :: l₂ ++ c₂ :: l₃) =
        (settings, .error ())) ∧
    usersUpdateKanbanColumnsState settings [] = (settings, .error ()) := by
  refine ⟨?_, ?_, rfl⟩
  · intro l₁ c₁ l₂ c₂ l₃ hkey
    unfold usersUpdateKanbanColumnsState
    rcases hv : usersUpdateKanbanColumnsValidate (l₁ ++ c₁ :: l₂ ++ c₂ :: l₃)
      with e | final
    · cases e
      rfl
    · exfalso
      have hpw := (validate_ok_pairwise hv).1
      have hsub := List.Pairwise.sublist
        (sublist_two_of_split l₁ l₂ l₃ c₁ c₂) hpw
      exact ((List.pairwise_cons.mp hsub).1 c₂ (by simp)) hkey
  · intro l₁ c₁ l₂ c₂ l₃ k hk1 hk2
    unfold usersUpdateKanbanColumnsState
    rcases hv : usersUpdateKanbanColumnsValidate (l₁ ++ c₁ :: l₂ ++ c₂ :: l₃)
      with e | final
    · cases e
      rfl
    · exfalso
      have hpw := (validate_ok_pairwise hv).2
      have hsub := List.Pairwise.sublist
        (sublist_two_of_split l₁ l₂ l₃ c₁ c₂) hpw
      exact ((List.pairwise_cons.mp hsub).1 c₂ (by simp)) k k hk1 hk2 rfl

/-- Witness for `updateKanbanColumns_rejects`: two names differing only
in case are rejected and the stored set is untouched. -/
theorem updateKanbanColumns_rejects_witness :
    usersUpdateKanbanColumnsState
      [{ id := "INBOX", name := "Inbox", gmailLabel := some "INBOX", order := 0 }]
      ([] ++ { id := "A", name := "Work", gmailLabel := none, order := none } ::
        [] ++ { id := "B", name := "wORK", gmailLabel := none, order := none } :: []) =
    ([{ id := "INBOX", name := "Inbox", gmailLabel := some "INBOX", order := 0 }],
     .error ()) :=
  (updateKanbanColumns_rejects
    [{ id := "INBOX", name := "Inbox", gmailLabel := some "INBOX", order := 0 }]).1
    [] { id := "A", name := "Work", gmailLabel := none, order := none }
    [] { id := "B", name := "wORK", gmailLabel := none, order := none }
    [] (by decide)

/-- The semantic-score clamp of `semanticSearch` (kanban.service.ts
337–340): `Math.max(0, Math.min(1, score))`. -/
def clampScore (s : ℚ) : ℚ :=
  max 0 (min 1 s)

/-- The fuzzy-to-semantic score remap of `semanticSearch`
(kanban.service.ts 363–367): `Math.max(0.3, 1 - fuzzyScore * 0.7)`.
The adjacent comment claims a perfect fuzzy match (raw score 0) becomes
about 0.95. -/
def convertFuzzyScore (f : ℚ) : ℚ :=
  max (3 / 10) (1 - f * (7 / 10))

/-- Claim C9 is refuted by the code: the remap sends a perfect
fuzzy-only hit (raw score 0) to exactly 1, the top of the semantic
scale, so it ties with or outranks every semantic hit — in particular
it strictly outranks a genuine high-confidence semantic hit of score
0.97 in the descending-by-score combined list, contradicting the code
comment ("Perfect fuzzy match (0) becomes ~0.95") and the spec.  The
lower end of the claim does hold: for raw fuzzy scores in [0, 1] the
converted score stays within [0.3, 1], so a fuzzy-only hit never sinks
below 0.3. -/
theorem fuzzy_remap_reaches_top :
    convertFuzzyScore 0 = 1 ∧
    (∀ s : ℚ, clampScore s ≤ convertFuzzyScore 0) ∧
    clampScore (97 / 100) < convertFuzzyScore 0 ∧
    (∀ f : ℚ, 0 ≤ f → f ≤ 1 →
      3 / 10 ≤ convertFuzzyScore f ∧ convertFuzzyScore f ≤ 1) := by
  have h0 : convertFuzzyScore 0 = 1 := by
    unfold convertFuzzyScore
    norm_num
  refine ⟨h0, ?_, ?_, ?_⟩
  · intro s
    rw [h0]
    unfold clampScore
    rcases le_or_lt s 0 with hs | hs
    · have : min 1 s ≤ 0 := le_trans (min_le_right 1 s) hs
      calc max 0 (min 1 s) ≤ max 0 0 := max_le_max le_rfl this
        _ ≤ 1 := by norm_num
    · exact max_le (by norm_num) (le_trans (min_le_left 1 s) le_rfl)
  · rw [h0]
    unfold clampScore
    norm_num
  · intro f hf0 hf1
    constructor
    · exact le_max_left _ _
    · unfold convertFuzzyScore
      refine max_le (by norm_num) ?_
      have : 0 ≤ f * (7 / 10) := by positivity
      linarith

/-- Witness for `fuzzy_remap_reaches_top` at raw fuzzy score 1/2. -/
theorem fuzzy_remap_reaches_top_witness :
    3 / 10 ≤ convertFuzzyScore (1 / 2) ∧ convertFuzzyScore (1 / 2) ≤ 1 :=
  fuzzy_remap_reaches_top.2.2.2 (1 / 2) (by norm_num) (by norm_num)

/-- Witness for `insert_idempotent_unique` on a one-item store. -/
theorem insert_idempotent_unique_witness :
    uniqueIds (onDemandSyncInsert
      [{ messageId := "m1", status := "INBOX", receivedAt := some 1,
         createdAt := 0, snoozeUntil := none, originalStatus := none }]
      { messageId := "m2", status := "TODO", receivedAt := some 2,
        createdAt := 1, snoozeUntil := none, originalStatus := none }) :=
  (insert_idempotent_unique
    [{ messageId := "m1", status := "INBOX", receivedAt := some 1,
       createdAt := 0, snoozeUntil := none, originalStatus := none }]
    { messageId := "m2", status := "TODO", receivedAt := some 2,
      createdAt := 1, snoozeUntil := none, originalStatus := none }).1
    (by simp [uniqueIds])

end KanbanSpec
